import Mathlib

/-!
Shallow embedding of `backend/onyx/connectors/onyx_jira/connector.py`
(the Jira connector: JQL construction, offset pagination, record
transformation with label/size filtering, batch emission, and settings
validation), together with theorems settling the specification claims.

Machine integers do not occur (Python ints are unbounded); timestamps are
modelled as natural numbers of epoch seconds.  Stateful operations are
modelled as pure functions from an explicit `ConnectorState` (plus a model
of the remote search service) returning `Except` results paired with the
resulting state.  Lazy generators are modelled by the full list of elements
they yield; the requests a pagination run performs are returned alongside
as an instrumentation log so that theorems can speak about offsets, page
sizes and requested field subsets.
-/

namespace JiraSpec

/-- Zero-pad a natural number to two digits, as strftime %H / %M / %m / %d do. -/
def pad2 (n : Nat) : String :=
  if n < 10 then "0" ++ toString n else toString n

/-- Zero-pad a year to four digits, as strftime %Y does. -/
def pad4 (n : Nat) : String :=
  if n < 10 then "000" ++ toString n
  else if n < 100 then "00" ++ toString n
  else if n < 1000 then "0" ++ toString n
  else toString n

/-- Convert a count of days since 1970-01-01 to a civil (year, month, day)
date of the proleptic Gregorian calendar: the date computation performed by
Python `datetime.fromtimestamp(ts, tz=timezone.utc)` for nonnegative
timestamps. -/
def civilFromDays (days : Nat) : Nat × Nat × Nat :=
  let z := days + 719468
  let era := z / 146097
  let doe := z % 146097
  let yoe := (doe - doe / 1460 + doe / 36524 - doe / 146096) / 365
  let y := yoe + era * 400
  let doy := doe - (365 * yoe + yoe / 4 - yoe / 100)
  let mp := (5 * doy + 2) / 153
  let d := doy - (153 * mp + 2) / 5 + 1
  let m := if mp < 10 then mp + 3 else mp - 9
  (if m ≤ 2 then y + 1 else y, m, d)

/-- The single-quote character (code point 39) used by the JQL time-window
predicate around the rendered timestamps. -/
def sq : String := String.singleton (Char.ofNat 39)

/-- `datetime.fromtimestamp(ts, tz=timezone.utc).strftime("%Y-%m-%d %H:%M")`:
the minute-granularity UTC rendering of an epoch-second timestamp
(connector.py lines 230-235). -/
def fmtUTCMinute (ts : Nat) : String :=
  let days := ts / 86400
  let rem := ts % 86400
  let ymd := civilFromDays days
  pad4 ymd.1 ++ "-" ++ pad2 ymd.2.1 ++ "-" ++ pad2 ymd.2.2 ++ " " ++
    pad2 (rem / 3600) ++ ":" ++ pad2 (rem % 3600 / 60)

/-! ## Data model -/

/-- One raw comment of an issue: the author's email address and the comment
body, each possibly missing or malformed (modelled as `Option`). -/
structure Comment where
  authorEmail : Option String
  body : Option String
deriving DecidableEq

/-- A resolved person descriptor.  `BasicExpertInfo` is opaque to the
connector core; only identity (for set deduplication) matters here. -/
def Person := String
deriving instance DecidableEq for Person

/-- One raw issue as returned by the remote search API.  Fields hold the
results of the accesses the connector performs: `description` is the
plain-text `fields.description` (absent when the remote sends null),
`adfDescription` the flattened rich-text description used by the API-v3
branch, `creatorInfo` / `assigneeInfo` the outcome of best-effort person
resolution (`none` on a missing field, malformed person object, or a raised
exception — all swallowed by the source), and `priority` / `status` /
`resolution` the display names of those optional fields. -/
structure Issue where
  key : String
  summary : String
  updated : String
  labels : List String
  description : Option String
  adfDescription : String
  comments : List Comment
  creatorInfo : Option Person
  assigneeInfo : Option Person
  priority : Option String
  status : Option String
  resolution : Option String
deriving DecidableEq

/-- A metadata value: a single string or a list of strings. -/
inductive MetaVal where
  | str (s : String)
  | list (l : List String)
deriving DecidableEq

/-- `TextSection(link=..., text=...)`. -/
structure TextSection where
  link : String
  text : String
deriving DecidableEq

/-- The connector's output unit (`onyx.connectors.models.Document`),
restricted to the fields this connector populates. -/
structure Document where
  id : String
  sections : List TextSection
  source : String
  semantic_identifier : String
  title : String
  doc_updated_at : String
  primary_owners : Option (List Person)
  metadata : List (String × MetaVal)
deriving DecidableEq

/-- Identifier-only output unit (`SlimDocument`); `perm_sync_data` is always
absent in this connector. -/
structure SlimDocument where
  id : String
  perm_sync_data : Option String
deriving DecidableEq

/-- The authenticated client handle; `client_info()` returns the server URL. -/
structure JiraClientHandle where
  serverUrl : String
deriving DecidableEq

/-- Module-level environment of connector.py: `JIRA_API_VERSION` (environment
variable, default "2") and `JIRA_CONNECTOR_MAX_TICKET_SIZE` (configured
maximum ticket size in bytes; its defining module is outside this
repository's sources, so the bound is carried as a parameter). -/
structure Env where
  apiVersion : String
  maxTicketSize : Nat
deriving DecidableEq

/-! ## Record transformation (fetch_jira_issues_batch, lines 76-156) -/

/-- Modelled from the spec: `time_str_to_utc`
(onyx/connectors/cross_connector_utils/miscellaneous_utils.py, not among the
sources) parses the record's update field into a UTC timestamp; no claim
depends on its value, so it is modelled as an abstract tagging of the raw
string. -/
def time_str_to_utc (s : String) : String :=
  "utc:" ++ s

/-- Python str() of an optional string as interpolated by an f-string:
`None` renders as the literal four characters "None". -/
def pyStr : Option String → String
  | none => "None"
  | some s => s

/-- Modelled from the spec: `get_comment_strs`
(onyx/connectors/onyx_jira/utils.py, not among the sources).  Comments whose
author email matches an entry of the blacklist case-insensitively after
whitespace trimming are excluded; a missing/malformed author or body yields
no comment rather than failing the record. -/
def get_comment_strs (comments : List Comment) (comment_email_blacklist : List String) :
    List String :=
  comments.filterMap fun c =>
    match c.authorEmail, c.body with
    | some e, some b =>
        if comment_email_blacklist.any (fun x => x.trim.toLower == e.trim.toLower)
        then none else some b
    | _, _ => none

/-- The assembled ticket content (connector.py lines 96-107): the description
(taken verbatim in API-version-2 mode, flattened from the rich-text tree
otherwise), a newline, then the surviving non-empty comments each prefixed
with "Comment: " and joined by newlines. -/
def ticketContent (env : Env) (comment_email_blacklist : List String) (i : Issue) :
    String :=
  let description :=
    if env.apiVersion = "2" then pyStr i.description else i.adfDescription
  let comments := get_comment_strs i.comments comment_email_blacklist
  description ++ "\n" ++
    String.intercalate "\n"
      ((comments.filter (fun c => c ≠ "")).map (fun c => "Comment: " ++ c))

/-- The `people` set of connector.py lines 119-134: creator and assignee are
resolved independently, each inside its own exception guard; a successful
resolution adds the person to the set (deduplicated). -/
def peopleOf (i : Issue) : List Person :=
  let l : List Person := match i.creatorInfo with
    | some p => [p]
    | none => []
  match i.assigneeInfo with
  | some p => if p ∈ l then l else l ++ [p]
  | none => l

/-- The metadata mapping of connector.py lines 136-144: priority, status and
resolution surface their display names when present; a non-empty label list
surfaces under "label"; absent fields are omitted. -/
def metadataOf (i : Issue) : List (String × MetaVal) :=
  (match i.priority with | some p => [("priority", MetaVal.str p)] | none => [])
  ++ (match i.status with | some p => [("status", MetaVal.str p)] | none => [])
  ++ (match i.resolution with | some p => [("resolution", MetaVal.str p)] | none => [])
  ++ (if i.labels ≠ [] then [("label", MetaVal.list i.labels)] else [])

/-- The body of the per-issue loop of `fetch_jira_issues_batch` after the
label filter (connector.py lines 96-156): assemble the content, drop the
record when its UTF-8 byte length strictly exceeds the maximum, otherwise
build the Document. -/
def processIssueBody (env : Env) (client : JiraClientHandle)
    (comment_email_blacklist : List String) (i : Issue) : Option Document :=
  let ticket_content := ticketContent env comment_email_blacklist i
  if ticket_content.utf8ByteSize > env.maxTicketSize then none
  else
    let page_url := client.serverUrl ++ "/browse/" ++ i.key
    let people := peopleOf i
    some
      { id := page_url
        sections := [⟨page_url, ticket_content⟩]
        source := "jira"
        semantic_identifier := i.key ++ ": " ++ i.summary
        title := i.key ++ " " ++ i.summary
        doc_updated_at := time_str_to_utc i.updated
        primary_owners := if people = [] then none else some people
        metadata := metadataOf i }

/-- One iteration of the `fetch_jira_issues_batch` loop (connector.py lines
88-156): skip the issue when the labels-to-skip set is non-empty and one of
its labels occurs among the issue's labels (exact, case-sensitive string
membership), otherwise proceed to body extraction and size evaluation. -/
def processIssue (env : Env) (client : JiraClientHandle)
    (comment_email_blacklist : List String) (labels_to_skip : List String)
    (i : Issue) : Option Document :=
  if labels_to_skip ≠ [] ∧ ∃ l ∈ labels_to_skip, l ∈ i.labels
  then none
  else processIssueBody env client comment_email_blacklist i

/-! ## Search pager (_paginate_jql_search, lines 45-73) -/

/-- One call to `jira_client.search_issues` as issued by the pager: the JQL
string, the offset `startAt`, the page size `maxResults` and the optional
field restriction. -/
structure SearchRequest where
  jql : String
  startAt : Nat
  maxResults : Nat
  fields : Option String
deriving DecidableEq

/-- The pagination loop of `_paginate_jql_search` starting at offset `start`
against a result set `resultSet` (the remote's ordered answer to `jql`; one
page request returns the slice beginning at the offset, of at most
`max_results` elements).  Returns the records yielded, in order, together
with the log of requests issued.  The loop requests a page, yields its
records, stops when the page is shorter than `max_results`, and otherwise
advances the offset by exactly `max_results`.  The `max_results = 0` guard
is unreachable under the positive page sizes the connector uses (the source
would loop forever there, re-requesting offset 0). -/
def paginateFrom (resultSet : List Issue) (jql : String) (max_results : Nat)
    (fields : Option String) (start : Nat) : List Issue × List SearchRequest :=
  if h : ((resultSet.drop start).take max_results).length < max_results then
    ((resultSet.drop start).take max_results, [⟨jql, start, max_results, fields⟩])
  else if h0 : max_results = 0 then
    ((resultSet.drop start).take max_results, [⟨jql, start, max_results, fields⟩])
  else
    let rest := paginateFrom resultSet jql max_results fields (start + max_results)
    ((resultSet.drop start).take max_results ++ rest.1,
      ⟨jql, start, max_results, fields⟩ :: rest.2)
termination_by resultSet.length - start
decreasing_by
  simp only [List.length_take, List.length_drop, not_lt] at h
  omega

/-- `_paginate_jql_search(jira_client, jql, max_results, fields)`: the pager
run from offset 0.  The remote service is modelled as a function from the
JQL string to the ordered result set it matches. -/
def _paginate_jql_search (serverFn : String → List Issue) (jql : String)
    (max_results : Nat) (fields : Option String) :
    List Issue × List SearchRequest :=
  paginateFrom (serverFn jql) jql max_results fields 0

/-- `fetch_jira_issues_batch(jira_client, jql, batch_size, ...)` (lines
76-156): drive the pager with page size `batch_size` and transform each
surviving issue into a Document.  Returns the documents yielded and the
pager's request log. -/
def fetch_jira_issues_batch (env : Env) (client : JiraClientHandle)
    (serverFn : String → List Issue) (jql : String) (batch_size : Nat)
    (comment_email_blacklist : List String) (labels_to_skip : List String) :
    List Document × List SearchRequest :=
  let pg := _paginate_jql_search serverFn jql batch_size none
  (pg.1.filterMap (processIssue env client comment_email_blacklist labels_to_skip),
   pg.2)

/-! ## Batch emission -/

/-- The batching loop shared by `load_from_state` (lines 212-225),
`poll_source` (lines 242-255) and `retrieve_all_slim_documents` (lines
265-284): append each element to the accumulating batch, emit the batch once
its length reaches `batch_size`, and emit the final (possibly smaller,
possibly empty) remainder batch after the stream ends. -/
def batchLoop (batch_size : Nat) (acc : List α) : List α → List (List α)
  | [] => [acc]
  | x :: xs =>
      let acc2 := acc ++ [x]
      if acc2.length ≥ batch_size then acc2 :: batchLoop batch_size [] xs
      else batchLoop batch_size acc2 xs

/-- Batch a fully materialized stream, starting from an empty batch. -/
def batched (batch_size : Nat) (l : List α) : List (List α) :=
  batchLoop batch_size [] l

/-! ## Connector orchestrator (class JiraConnector) -/

/-- Error taxonomy of the connector (exceptions raised by connector.py). -/
inductive JiraError where
  | connectorMissingCredential (msg : String)
  | credentialExpired (msg : String)
  | insufficientPermissions (msg : String)
  | connectorValidation (msg : String)
  | runtimeError (msg : String)
deriving DecidableEq

/-- The process-held state of a `JiraConnector` after `__init__`:
`jira_base` already has its trailing slash stripped, `_jira_client` is
absent until `load_credentials` stores a handle. -/
structure ConnectorState where
  batch_size : Nat
  jira_base : String
  jira_project : Option String
  _comment_email_blacklist : List String
  labels_to_skip : List String
  _jira_client : Option JiraClientHandle
deriving DecidableEq

/-- Python truthiness of an optional string: None and the empty string are
falsy. -/
def optStrTruthy : Option String → Bool
  | none => false
  | some s => s ≠ ""

/-- The `comment_email_blacklist` property (lines 179-181): each configured
email address, whitespace-stripped. -/
def comment_email_blacklist (st : ConnectorState) : List String :=
  st._comment_email_blacklist.map String.trim

/-- The `quoted_jira_project` property (lines 189-194): the project key in
double quotes, or empty when no (non-empty) project is configured. -/
def quoted_jira_project (st : ConnectorState) : String :=
  if optStrTruthy st.jira_project
  then "\"" ++ st.jira_project.getD "" ++ "\"" else ""

/-- `_get_jql_query` (lines 203-207): the scope filter. -/
def _get_jql_query (st : ConnectorState) : String :=
  if optStrTruthy st.jira_project
  then "project = " ++ quoted_jira_project st else ""

/-- The JQL string built by `poll_source` (lines 230-240): the scope filter,
followed by " AND " when non-empty, followed by the inclusive time-window
predicate over the minute-granularity UTC renderings of the bounds. -/
def poll_source_jql (st : ConnectorState) (s e : Nat) : String :=
  let start_date_str := fmtUTCMinute s
  let end_date_str := fmtUTCMinute e
  let base_jql := _get_jql_query st
  (if base_jql ≠ "" then base_jql ++ " AND " else "") ++
    ("updated >= " ++ sq ++ start_date_str ++ sq ++
      " AND updated <= " ++ sq ++ end_date_str ++ sq)

/-- Modelled from the spec: `build_jira_client`
(onyx/connectors/onyx_jira/utils.py, not among the sources) constructs an
authenticated client handle for the base URL from the credentials. -/
def build_jira_client (credentials : List (String × String)) (jira_base : String) :
    JiraClientHandle :=
  ⟨jira_base⟩

/-- `load_credentials` (lines 196-201): build and store the client handle. -/
def load_credentials (st : ConnectorState) (credentials : List (String × String)) :
    ConnectorState :=
  { st with _jira_client := some (build_jira_client credentials st.jira_base) }

/-- Page size used by the content-bearing retrieval modes (line 42). -/
def _JIRA_FULL_PAGE_SIZE : Nat := 50

/-- Page and batch size of the identifier-only mode (line 41). -/
def _JIRA_SLIM_PAGE_SIZE : Nat := 500

/-- `load_from_state` (lines 209-225): full snapshot.  Accessing the
`jira_client` property with no stored handle raises
`ConnectorMissingCredentialError("Jira")`; otherwise the surviving documents
are emitted in batches of `batch_size`.  The state is returned unchanged. -/
def load_from_state (env : Env) (st : ConnectorState)
    (serverFn : String → List Issue) :
    Except JiraError (List (List Document) × List SearchRequest) × ConnectorState :=
  match st._jira_client with
  | none => (Except.error (JiraError.connectorMissingCredential "Jira"), st)
  | some c =>
      let fetched := fetch_jira_issues_batch env c serverFn (_get_jql_query st)
        _JIRA_FULL_PAGE_SIZE (comment_email_blacklist st) st.labels_to_skip
      (Except.ok (batched st.batch_size fetched.1, fetched.2), st)

/-- `poll_source` (lines 227-255): like `load_from_state` but over the
time-windowed JQL query built from the epoch-second bounds. -/
def poll_source (env : Env) (st : ConnectorState)
    (serverFn : String → List Issue) (s e : Nat) :
    Except JiraError (List (List Document) × List SearchRequest) × ConnectorState :=
  match st._jira_client with
  | none => (Except.error (JiraError.connectorMissingCredential "Jira"), st)
  | some c =>
      let fetched := fetch_jira_issues_batch env c serverFn (poll_source_jql st s e)
        _JIRA_FULL_PAGE_SIZE (comment_email_blacklist st) st.labels_to_skip
      (Except.ok (batched st.batch_size fetched.1, fetched.2), st)

/-- Modelled from the spec: `build_jira_url`
(onyx/connectors/onyx_jira/utils.py, not among the sources) builds the deep
link for a record key — the same link-based id scheme used for content
documents. -/
def build_jira_url (client : JiraClientHandle) (issue_key : String) : String :=
  client.serverUrl ++ "/browse/" ++ issue_key

/-- `retrieve_all_slim_documents` (lines 257-284): identifier-only listing.
The optional time bounds are accepted but the query is the scope-only
`_get_jql_query`; the pager is driven with page size 500 requesting only the
"key" field, and the slim documents are emitted in batches of that same
size.  The indexing-heartbeat callback parameter is unused by the source
body and omitted here. -/
def retrieve_all_slim_documents (st : ConnectorState)
    (serverFn : String → List Issue) (s e : Option Nat) :
    Except JiraError (List (List SlimDocument) × List SearchRequest) × ConnectorState :=
  match st._jira_client with
  | none => (Except.error (JiraError.connectorMissingCredential "Jira"), st)
  | some c =>
      let pg := _paginate_jql_search serverFn (_get_jql_query st)
        _JIRA_SLIM_PAGE_SIZE (some "key")
      let slim := pg.1.map fun issue =>
        SlimDocument.mk (build_jira_url c issue.key) none
      (Except.ok (batched _JIRA_SLIM_PAGE_SIZE slim, pg.2), st)

/-- The outcome of the one remote call `validate_connector_settings`
performs (`project(key)` when a project is configured, `projects()`
otherwise): success, or an exception whose `status_code` attribute is
`none` when absent. -/
inductive RemoteOutcome where
  | ok
  | err (status_code : Option Nat) (msg : String)
deriving DecidableEq

/-- `validate_connector_settings` (lines 286-335): requires a loaded client;
maps the remote failure's status code to the error taxonomy.  The
project-scoped branch handles 401 / 403 / 404 / 429; the project-less
branch handles 401 / 403 / 429 only; anything else is wrapped as a
RuntimeError carrying the original message. -/
def validate_connector_settings (st : ConnectorState) (remote : RemoteOutcome) :
    Except JiraError Unit × ConnectorState :=
  match st._jira_client with
  | none => (Except.error (JiraError.connectorMissingCredential "Jira"), st)
  | some _ =>
    if optStrTruthy st.jira_project then
      match remote with
      | RemoteOutcome.ok => (Except.ok (), st)
      | RemoteOutcome.err status_code msg =>
        if status_code = some 401 then
          (Except.error (JiraError.credentialExpired
            "Jira credential appears to be expired or invalid (HTTP 401)."), st)
        else if status_code = some 403 then
          (Except.error (JiraError.insufficientPermissions
            "Your Jira token does not have sufficient permissions for this project (HTTP 403)."), st)
        else if status_code = some 404 then
          (Except.error (JiraError.connectorValidation
            ("Jira project not found with key: " ++ st.jira_project.getD "")), st)
        else if status_code = some 429 then
          (Except.error (JiraError.connectorValidation
            "Validation failed due to Jira rate-limits being exceeded. Please try again later."), st)
        else
          (Except.error (JiraError.runtimeError
            ("Unexpected Jira error during validation: " ++ msg)), st)
    else
      match remote with
      | RemoteOutcome.ok => (Except.ok (), st)
      | RemoteOutcome.err status_code msg =>
        if status_code = some 401 then
          (Except.error (JiraError.credentialExpired
            "Jira credential appears to be expired or invalid (HTTP 401)."), st)
        else if status_code = some 403 then
          (Except.error (JiraError.insufficientPermissions
            "Your Jira token does not have sufficient permissions to list projects (HTTP 403)."), st)
        else if status_code = some 429 then
          (Except.error (JiraError.connectorValidation
            "Validation failed due to Jira rate-limits being exceeded. Please try again later."), st)
        else
          (Except.error (JiraError.runtimeError
            ("Unexpected Jira error during validation: " ++ msg)), st)

/-! ## Pagination lemmas -/

/-- For a positive page size the pager yields the whole remainder of the
result set from its starting offset. -/
theorem paginateFrom_fst (resultSet : List Issue) (jql : String)
    (max_results : Nat) (fields : Option String) (start : Nat) :
    1 ≤ max_results →
      (paginateFrom resultSet jql max_results fields start).1 =
        resultSet.drop start := by
  induction start using paginateFrom.induct resultSet jql max_results fields with
  | case1 start h =>
      intro hP
      rw [paginateFrom]
      rw [dif_pos h]
      apply List.take_of_length_le
      simp only [List.length_take, List.length_drop] at h ⊢
      omega
  | case2 start h h0 =>
      intro hP
      omega
  | case3 start h h0 ih =>
      intro hP
      rw [paginateFrom]
      rw [dif_neg h, dif_neg h0]
      simp only [ih hP]
      rw [← List.drop_drop, List.take_append_drop]

/-- The request log of a pager run: requests start at the starting offset
and advance by exactly the page size, one request per page plus the final
short page, i.e. `(remaining length) / pageSize + 1` requests in total. -/
theorem paginateFrom_snd (resultSet : List Issue) (jql : String)
    (max_results : Nat) (fields : Option String) (start : Nat) :
    1 ≤ max_results →
      (paginateFrom resultSet jql max_results fields start).2 =
        (List.range ((resultSet.length - start) / max_results + 1)).map
          (fun i => ⟨jql, start + i * max_results, max_results, fields⟩) := by
  induction start using paginateFrom.induct resultSet jql max_results fields with
  | case1 start h =>
      intro hP
      rw [paginateFrom]
      rw [dif_pos h]
      simp only [List.length_take, List.length_drop] at h
      have hlt : resultSet.length - start < max_results := by omega
      rw [Nat.div_eq_of_lt hlt]
      simp [List.range_succ]
  | case2 start h h0 =>
      intro hP
      omega
  | case3 start h h0 ih =>
      intro hP
      rw [paginateFrom]
      rw [dif_neg h, dif_neg h0]
      simp only [List.length_take, List.length_drop, not_lt] at h
      have hle : max_results ≤ resultSet.length - start := by omega
      simp only [ih hP]
      have harg : resultSet.length - (start + max_results) =
          resultSet.length - start - max_results := by omega
      rw [harg]
      rw [Nat.div_eq_sub_div (by omega) hle]
      conv_rhs => rw [List.range_succ_eq_map]
      simp only [List.map_cons, List.map_map]
      congr 1
      · simp
      · apply List.map_congr_left
        intro i _
        simp only [Function.comp_apply]
        congr 1
        simp [Nat.succ_mul]
        omega

/-- Every request of a pager run carries the given JQL string, page size and
field restriction. -/
theorem paginateFrom_mem_snd (resultSet : List Issue) (jql : String)
    (max_results : Nat) (fields : Option String) (start : Nat) :
    ∀ r ∈ (paginateFrom resultSet jql max_results fields start).2,
      r.jql = jql ∧ r.maxResults = max_results ∧ r.fields = fields := by
  induction start using paginateFrom.induct resultSet jql max_results fields with
  | case1 start h =>
      rw [paginateFrom, dif_pos h]
      intro r hr
      simp only [List.mem_singleton] at hr
      subst hr
      exact ⟨rfl, rfl, rfl⟩
  | case2 start h h0 =>
      rw [paginateFrom, dif_neg h, dif_pos h0]
      intro r hr
      simp only [List.mem_singleton] at hr
      subst hr
      exact ⟨rfl, rfl, rfl⟩
  | case3 start h h0 ih =>
      rw [paginateFrom, dif_neg h, dif_neg h0]
      intro r hr
      simp only [List.mem_cons] at hr
      rcases hr with hr | hr
      · subst hr
        exact ⟨rfl, rfl, rfl⟩
      · exact ih r hr

/-! ## Batching lemmas -/

/-- Specification view of the batching loop: the `floor(M/B)` full chunks of
size `B` in order, followed by the remainder chunk (possibly empty). -/
def chunksSpec (B : Nat) (l : List α) : List (List α) :=
  if h : l.length < B then [l]
  else if h0 : B = 0 then [l]
  else l.take B :: chunksSpec B (l.drop B)
termination_by l.length
decreasing_by
  simp only [not_lt] at h
  simp only [List.length_drop]
  omega

theorem chunksSpec_ne_nil (B : Nat) (l : List α) : chunksSpec B l ≠ [] := by
  rw [chunksSpec]
  split
  · simp
  · split
    · simp
    · simp

theorem chunksSpec_join (B : Nat) (l : List α) : (chunksSpec B l).join = l := by
  induction l using chunksSpec.induct B with
  | case1 l h =>
      rw [chunksSpec, dif_pos h]
      simp
  | case2 l h h0 =>
      rw [chunksSpec, dif_neg h, dif_pos h0]
      simp
  | case3 l h h0 ih =>
      rw [chunksSpec, dif_neg h, dif_neg h0]
      simp [ih]

theorem chunksSpec_length (B : Nat) (l : List α) (hB : 1 ≤ B) :
    (chunksSpec B l).length = l.length / B + 1 := by
  induction l using chunksSpec.induct B with
  | case1 l h =>
      rw [chunksSpec, dif_pos h]
      rw [Nat.div_eq_of_lt h]
      simp
  | case2 l h h0 => omega
  | case3 l h h0 ih =>
      rw [chunksSpec, dif_neg h, dif_neg h0]
      simp only [not_lt] at h
      rw [Nat.div_eq_sub_div (by omega) h]
      simp only [List.length_cons, ih]
      simp [List.length_drop]

theorem chunksSpec_dropLast (B : Nat) (l : List α) (hB : 1 ≤ B) :
    ∀ b ∈ (chunksSpec B l).dropLast, b.length = B := by
  induction l using chunksSpec.induct B with
  | case1 l h =>
      rw [chunksSpec, dif_pos h]
      simp
  | case2 l h h0 => omega
  | case3 l h h0 ih =>
      rw [chunksSpec, dif_neg h, dif_neg h0]
      simp only [not_lt] at h
      rw [List.dropLast_cons_of_ne_nil (chunksSpec_ne_nil B (l.drop B))]
      intro b hb
      rcases List.mem_cons.mp hb with hb | hb
      · subst hb
        simp only [List.length_take]
        omega
      · exact ih b hb

theorem chunksSpec_getLast (B : Nat) (l : List α) (hB : 1 ≤ B) :
    ∃ last, (chunksSpec B l).getLast? = some last ∧
      last.length = l.length % B := by
  induction l using chunksSpec.induct B with
  | case1 l h =>
      rw [chunksSpec, dif_pos h]
      exact ⟨l, rfl, (Nat.mod_eq_of_lt h).symm⟩
  | case2 l h h0 => omega
  | case3 l h h0 ih =>
      rw [chunksSpec, dif_neg h, dif_neg h0]
      simp only [not_lt] at h
      obtain ⟨last, hsome, hlen⟩ := ih
      obtain ⟨y, ys, heq⟩ := List.exists_cons_of_ne_nil (chunksSpec_ne_nil B (l.drop B))
      refine ⟨last, ?_, ?_⟩
      · rw [heq, List.getLast?_cons_cons, ← heq]
        exact hsome
      · rw [hlen, List.length_drop, ← Nat.mod_eq_sub_mod h]

/-- The batching loop of the source, run from a partial batch shorter than
the batch size, produces exactly the chunk decomposition of everything it
sees. -/
theorem batchLoop_eq_chunksSpec (B : Nat) (hB : 1 ≤ B) (l acc : List α)
    (hacc : acc.length < B) :
    batchLoop B acc l = chunksSpec B (acc ++ l) := by
  induction l generalizing acc with
  | nil =>
      rw [batchLoop, chunksSpec]
      rw [dif_pos (by simpa using hacc)]
      simp
  | cons x xs ih =>
      rw [batchLoop]
      by_cases hfull : (acc ++ [x]).length ≥ B
      · rw [if_pos hfull]
        have hlen : (acc ++ [x]).length = B := by
          simp only [List.length_append, List.length_cons, List.length_nil] at hfull ⊢
          omega
        have hsplit : acc ++ x :: xs = (acc ++ [x]) ++ xs := by simp
        rw [hsplit, chunksSpec]
        rw [dif_neg (by rw [List.length_append, hlen]; omega)]
        rw [dif_neg (by omega)]
        rw [List.take_left' hlen, List.drop_left' hlen]
        rw [ih [] (by simpa using hB)]
        simp
      · rw [if_neg hfull]
        rw [ih (acc ++ [x]) (lt_of_not_ge hfull)]
        congr 1
        simp

/-- `batched` is the chunk decomposition. -/
theorem batched_eq_chunksSpec (B : Nat) (hB : 1 ≤ B) (l : List α) :
    batched B l = chunksSpec B l := by
  rw [batched, batchLoop_eq_chunksSpec B hB l [] (by simpa using hB)]
  simp

/-- Ceiling division identity: when P does not divide N,
`ceil(N/P) = (N + P - 1) / P = N / P + 1`. -/
theorem ceil_div_of_not_dvd (N P : Nat) (hP : 1 ≤ P) (h : ¬ P ∣ N) :
    (N + P - 1) / P = N / P + 1 := by
  have hmod : N % P ≠ 0 := fun h0 => h (Nat.dvd_of_mod_eq_zero h0)
  have hdm := Nat.div_add_mod N P
  have hlt : N % P < P := Nat.mod_lt _ (by omega)
  have hPq : P * (N / P + 1) = P * (N / P) + P := by ring
  have heq : N + P - 1 = P * (N / P + 1) + (N % P - 1) := by omega
  rw [heq, Nat.mul_add_div (by omega)]
  have hz : (N % P - 1) / P = 0 := Nat.div_eq_of_lt (by omega)
  omega

/-! ## Small string helpers -/

theorem append_ne_empty_left (a b : String) (h : a ≠ "") : a ++ b ≠ "" := by
  intro hab
  apply h
  apply String.ext
  have hd := congrArg String.data hab
  simp only [String.data_append] at hd
  exact (List.append_eq_nil.mp hd).1

/-! ## Claims -/

/-- A concrete issue used by witnesses: plain description "d", no labels,
no comments, no people, no optional metadata. -/
def sampleIssue (key : String) : Issue :=
  ⟨key, "s", "u", [], some "d", "", [], none, none, none, none, none⟩

/-- A concrete document used by witnesses. -/
def sampleDoc : Document :=
  ⟨"id", [], "jira", "si", "t", "u", none, []⟩

/-- C1: for every project key and epoch-second bounds, `poll_source` builds
its JQL as the scope filter (left operand, omitted when no project is
configured) conjoined by " AND " with the inclusive time-window predicate
whose bounds are the minute-granularity UTC renderings of start and end;
concretely, with project key "OPS" and bounds 1700000000 / 1700003600 the
query is exactly
`project = "OPS" AND updated >= <q>2023-11-14 22:13<q> AND updated <= <q>2023-11-14 23:13<q>`
with `<q>` the single-quote character `sq`.  Every search request issued by
`poll_source` carries exactly this query string. -/
theorem claim_C1 (st : ConnectorState) (s e : Nat) (p : String) :
    (st.jira_project = some p → p ≠ "" →
      poll_source_jql st s e =
        "project = " ++ "\"" ++ p ++ "\"" ++ " AND " ++
          ("updated >= " ++ sq ++ fmtUTCMinute s ++ sq ++
            " AND updated <= " ++ sq ++ fmtUTCMinute e ++ sq))
    ∧ (st.jira_project = none →
      poll_source_jql st s e =
        "updated >= " ++ sq ++ fmtUTCMinute s ++ sq ++
          " AND updated <= " ++ sq ++ fmtUTCMinute e ++ sq)
    ∧ (st.jira_project = some "OPS" →
      poll_source_jql st 1700000000 1700003600 =
        "project = \"OPS\" AND updated >= " ++ sq ++ "2023-11-14 22:13" ++ sq ++
          " AND updated <= " ++ sq ++ "2023-11-14 23:13" ++ sq)
    ∧ (∀ env serverFn c, st._jira_client = some c →
      ∃ out, (poll_source env st serverFn s e).1 = Except.ok out
        ∧ ∀ r ∈ out.2, r.jql = poll_source_jql st s e) := by
  have hscope : ∀ s2 e2 (q : String), st.jira_project = some q → q ≠ "" →
      poll_source_jql st s2 e2 =
        "project = " ++ "\"" ++ q ++ "\"" ++ " AND " ++
          ("updated >= " ++ sq ++ fmtUTCMinute s2 ++ sq ++
            " AND updated <= " ++ sq ++ fmtUTCMinute e2 ++ sq) := by
    intro s2 e2 q hq hqe
    have htr : optStrTruthy st.jira_project = true := by
      rw [hq]
      simp [optStrTruthy, hqe]
    have hbase : _get_jql_query st = "project = " ++ ("\"" ++ q ++ "\"") := by
      rw [_get_jql_query, if_pos htr, quoted_jira_project, if_pos htr, hq]
      simp
    have hne : _get_jql_query st ≠ "" := by
      rw [hbase]
      exact append_ne_empty_left _ _ (by decide)
    rw [poll_source_jql]
    simp only [hbase] at hne ⊢
    rw [if_pos hne]
    simp only [String.append_assoc]
  refine ⟨hscope s e p, ?_, ?_, ?_⟩
  · intro hq
    have hbase : _get_jql_query st = "" := by
      rw [_get_jql_query]
      rw [hq]
      rfl
    rw [poll_source_jql]
    simp only [hbase]
    rw [if_neg (by simp)]
    rw [String.empty_append]
  · intro hq
    rw [hscope 1700000000 1700003600 "OPS" hq (by decide)]
    rfl
  · intro env serverFn c hc
    refine ⟨_, by rw [poll_source, hc], ?_⟩
    intro r hr
    exact (paginateFrom_mem_snd _ _ _ _ _ r hr).1

/-- C1 witness: the concrete scenario of the claim, on a connector state
with project key "OPS". -/
theorem claim_C1_witness :
    poll_source_jql ⟨10, "b", some "OPS", [], [], none⟩ 1700000000 1700003600 =
      "project = \"OPS\" AND updated >= " ++ sq ++ "2023-11-14 22:13" ++ sq ++
        " AND updated <= " ++ sq ++ "2023-11-14 23:13" ++ sq :=
  (claim_C1 ⟨10, "b", some "OPS", [], [], none⟩ 1700000000 1700003600 "OPS").2.2.1 rfl

/-- C2: for batch size B ≥ 1 and M surviving documents, the batch stream
consists of floor(M/B) batches of exactly B documents followed by exactly
one final batch of size M mod B (emitted even when empty), so at least one
batch is always emitted and the concatenation of the batches is the
surviving documents in order; `load_from_state` and `poll_source` both emit
exactly `batched batch_size` of the documents surviving their fetch. -/
theorem claim_C2 (B : Nat) (hB : 1 ≤ B) (docs : List Document) :
    (batched B docs).length = docs.length / B + 1
    ∧ (∀ b ∈ (batched B docs).dropLast, b.length = B)
    ∧ (∃ last, (batched B docs).getLast? = some last ∧
        last.length = docs.length % B)
    ∧ batched B docs ≠ []
    ∧ (batched B docs).join = docs
    ∧ (∀ env st c serverFn s e, st._jira_client = some c →
        (load_from_state env st serverFn).1 =
          Except.ok (batched st.batch_size
            (fetch_jira_issues_batch env c serverFn (_get_jql_query st)
              _JIRA_FULL_PAGE_SIZE (comment_email_blacklist st) st.labels_to_skip).1,
            (fetch_jira_issues_batch env c serverFn (_get_jql_query st)
              _JIRA_FULL_PAGE_SIZE (comment_email_blacklist st) st.labels_to_skip).2)
        ∧ (poll_source env st serverFn s e).1 =
          Except.ok (batched st.batch_size
            (fetch_jira_issues_batch env c serverFn (poll_source_jql st s e)
              _JIRA_FULL_PAGE_SIZE (comment_email_blacklist st) st.labels_to_skip).1,
            (fetch_jira_issues_batch env c serverFn (poll_source_jql st s e)
              _JIRA_FULL_PAGE_SIZE (comment_email_blacklist st) st.labels_to_skip).2)) := by
  rw [batched_eq_chunksSpec B hB]
  refine ⟨chunksSpec_length B docs hB, chunksSpec_dropLast B docs hB,
    chunksSpec_getLast B docs hB, chunksSpec_ne_nil B docs,
    chunksSpec_join B docs, ?_⟩
  intro env st c serverFn s e hc
  constructor
  · rw [load_from_state, hc]
  · rw [poll_source, hc]

/-- C2 witness: three documents with batch size two give one full batch and
a final batch of one; four documents give two full batches and a final
empty batch. -/
theorem claim_C2_witness :
    (batched 2 [sampleDoc, sampleDoc, sampleDoc]).length = 2
    ∧ (batched 2 [sampleDoc, sampleDoc, sampleDoc]).join =
        [sampleDoc, sampleDoc, sampleDoc]
    ∧ (∃ last, (batched 2 [sampleDoc, sampleDoc, sampleDoc, sampleDoc]).getLast? =
        some last ∧ last.length = 0) := by
  have h3 := claim_C2 2 (by decide) [sampleDoc, sampleDoc, sampleDoc]
  have h4 := claim_C2 2 (by decide) [sampleDoc, sampleDoc, sampleDoc, sampleDoc]
  refine ⟨by rw [h3.1]; decide, h3.2.2.2.2.1, ?_⟩
  obtain ⟨last, hsome, hlen⟩ := h4.2.2.1
  exact ⟨last, hsome, by rw [hlen]; decide⟩

/-- C3: for a result set of size N and page size P ≥ 1, the pager starts at
offset 0, issues requests whose offsets advance by exactly P (request i has
offset i·P) each asking for at most P records, yields exactly the N records
in original order, and issues ceil(N/P) requests — N/P + 1 when N is an
exact multiple of P (to observe the short final page). -/
theorem claim_C3 (serverFn : String → List Issue) (jql : String) (P : Nat)
    (fields : Option String) (hP : 1 ≤ P) :
    ((_paginate_jql_search serverFn jql P fields).1 = serverFn jql)
    ∧ ((_paginate_jql_search serverFn jql P fields).2 =
        (List.range ((serverFn jql).length / P + 1)).map
          (fun i => ⟨jql, i * P, P, fields⟩))
    ∧ ((_paginate_jql_search serverFn jql P fields).2.length =
        if P ∣ (serverFn jql).length then (serverFn jql).length / P + 1
        else ((serverFn jql).length + P - 1) / P) := by
  have h1 : (_paginate_jql_search serverFn jql P fields).1 = serverFn jql := by
    rw [_paginate_jql_search, paginateFrom_fst _ _ _ _ _ hP]
    simp
  have h2 : (_paginate_jql_search serverFn jql P fields).2 =
      (List.range ((serverFn jql).length / P + 1)).map
        (fun i => ⟨jql, i * P, P, fields⟩) := by
    rw [_paginate_jql_search, paginateFrom_snd _ _ _ _ _ hP]
    simp
  refine ⟨h1, h2, ?_⟩
  rw [h2]
  by_cases hdvd : P ∣ (serverFn jql).length
  · rw [if_pos hdvd]
    simp
  · rw [if_neg hdvd, ceil_div_of_not_dvd _ _ hP hdvd]
    simp

/-- C3 witness: three records with page size two are fetched in two requests
at offsets 0 and 2 and yielded in order. -/
theorem claim_C3_witness :
    (_paginate_jql_search
        (fun _ => [sampleIssue "A", sampleIssue "B", sampleIssue "C"]) "q" 2 none).1 =
      [sampleIssue "A", sampleIssue "B", sampleIssue "C"]
    ∧ (_paginate_jql_search
        (fun _ => [sampleIssue "A", sampleIssue "B", sampleIssue "C"]) "q" 2 none).2 =
      [⟨"q", 0, 2, none⟩, ⟨"q", 2, 2, none⟩] := by
  have h := claim_C3
    (fun _ => [sampleIssue "A", sampleIssue "B", sampleIssue "C"]) "q" 2 none (by decide)
  refine ⟨h.1, ?_⟩
  rw [h.2.1]
  decide

/-- C4: for every record that passes the label filter, assembled content
whose UTF-8 byte length strictly exceeds the configured maximum makes the
record be dropped without error, and a record whose assembled content is
exactly at the byte-size limit is retained and emitted into the fetch
output. -/
theorem claim_C4 (env : Env) (client : JiraClientHandle)
    (bl skips : List String) (i : Issue)
    (hpass : ¬(skips ≠ [] ∧ ∃ l ∈ skips, l ∈ i.labels)) :
    ((ticketContent env bl i).utf8ByteSize > env.maxTicketSize →
        processIssue env client bl skips i = none)
    ∧ ((ticketContent env bl i).utf8ByteSize = env.maxTicketSize →
        ∃ d, processIssue env client bl skips i = some d
          ∧ ∀ serverFn jql B, 1 ≤ B → i ∈ serverFn jql →
              d ∈ (fetch_jira_issues_batch env client serverFn jql B bl skips).1) := by
  have hlabel : processIssue env client bl skips i =
      processIssueBody env client bl i := by
    rw [processIssue, if_neg hpass]
  constructor
  · intro hgt
    rw [hlabel, processIssueBody, if_pos hgt]
  · intro hex
    have hng : ¬ (ticketContent env bl i).utf8ByteSize > env.maxTicketSize := by
      omega
    obtain ⟨d, hd⟩ : ∃ d, processIssue env client bl skips i = some d := by
      rw [hlabel, processIssueBody, if_neg hng]
      exact ⟨_, rfl⟩
    refine ⟨d, hd, ?_⟩
    intro serverFn jql B hB hi
    have hyield : (_paginate_jql_search serverFn jql B none).1 = serverFn jql := by
      rw [_paginate_jql_search, paginateFrom_fst _ _ _ _ _ hB]
      simp
    rw [fetch_jira_issues_batch]
    simp only [hyield]
    exact List.mem_filterMap.mpr ⟨i, hi, hd⟩

/-- C4 witness: with plain description "d" and no comments the content is
"d\n" (2 bytes); at limit 1 the record is dropped, at limit 2 it is
emitted. -/
theorem claim_C4_witness :
    processIssue ⟨"2", 1⟩ ⟨"u"⟩ [] [] (sampleIssue "K") = none
    ∧ ∃ d, processIssue ⟨"2", 2⟩ ⟨"u"⟩ [] [] (sampleIssue "K") = some d := by
  constructor
  · exact (claim_C4 ⟨"2", 1⟩ ⟨"u"⟩ [] [] (sampleIssue "K")
      (by simp)).1 (by decide)
  · obtain ⟨d, hd, _⟩ := (claim_C4 ⟨"2", 2⟩ ⟨"u"⟩ [] [] (sampleIssue "K")
      (by simp)).2 (by decide)
    exact ⟨d, hd⟩

/-- C7: with a non-empty labels-to-skip set, a record whose label set
intersects it (exact, case-sensitive string equality) is skipped without
error and never contributes to the output of a fetch, while a record with
no intersecting label proceeds to body extraction and size/content
evaluation. -/
theorem claim_C7 (env : Env) (client : JiraClientHandle) (bl skips : List String)
    (i : Issue) (hne : skips ≠ []) :
    ((∃ l, l ∈ skips ∧ l ∈ i.labels) →
        processIssue env client bl skips i = none
        ∧ ∀ serverFn jql B pre post, 1 ≤ B → serverFn jql = pre ++ i :: post →
            (fetch_jira_issues_batch env client serverFn jql B bl skips).1 =
              (pre ++ post).filterMap (processIssue env client bl skips))
    ∧ ((∀ l, l ∈ skips → l ∉ i.labels) →
        processIssue env client bl skips i = processIssueBody env client bl i) := by
  constructor
  · intro hint
    have hcond : skips ≠ [] ∧ ∃ l ∈ skips, l ∈ i.labels := ⟨hne, hint⟩
    have hnone : processIssue env client bl skips i = none := by
      rw [processIssue, if_pos hcond]
    refine ⟨hnone, ?_⟩
    intro serverFn jql B pre post hB hsf
    have hyield : (_paginate_jql_search serverFn jql B none).1 = serverFn jql := by
      rw [_paginate_jql_search, paginateFrom_fst _ _ _ _ _ hB]
      simp
    rw [fetch_jira_issues_batch]
    simp only [hyield, hsf]
    simp [List.filterMap_append, List.filterMap_cons, hnone]
  · intro hno
    have hcond : ¬(skips ≠ [] ∧ ∃ l ∈ skips, l ∈ i.labels) := by
      rintro ⟨h1, l, hl, hli⟩
      exact hno l hl hli
    rw [processIssue, if_neg hcond]

/-- C7 witness: skipping label "sec" drops an issue labelled "sec" but a
record labelled "Sec" (different case) proceeds to body evaluation. -/
theorem claim_C7_witness :
    processIssue ⟨"2", 100⟩ ⟨"u"⟩ [] ["sec"]
      { sampleIssue "K" with labels := ["sec"] } = none
    ∧ processIssue ⟨"2", 100⟩ ⟨"u"⟩ [] ["sec"]
        { sampleIssue "K" with labels := ["Sec"] } =
      processIssueBody ⟨"2", 100⟩ ⟨"u"⟩ [] { sampleIssue "K" with labels := ["Sec"] } := by
  constructor
  · exact ((claim_C7 ⟨"2", 100⟩ ⟨"u"⟩ [] ["sec"]
      { sampleIssue "K" with labels := ["sec"] } (by decide)).1
      ⟨"sec", by decide, by decide⟩).1
  · exact (claim_C7 ⟨"2", 100⟩ ⟨"u"⟩ [] ["sec"]
      { sampleIssue "K" with labels := ["Sec"] } (by decide)).2
      (by decide)

/-- C9: creator and assignee are resolved independently and a resolution
failure of either is swallowed: valid creator with malformed assignee gives
exactly one owner; both failing still emits the record with owners absent;
both succeeding gives both owners (deduplicated). -/
theorem claim_C9 (env : Env) (client : JiraClientHandle) (bl : List String)
    (i : Issue)
    (hsize : (ticketContent env bl i).utf8ByteSize ≤ env.maxTicketSize) :
    (∀ p, i.creatorInfo = some p → i.assigneeInfo = none →
        ∃ d, processIssueBody env client bl i = some d ∧
          d.primary_owners = some [p])
    ∧ (∀ q, i.creatorInfo = none → i.assigneeInfo = some q →
        ∃ d, processIssueBody env client bl i = some d ∧
          d.primary_owners = some [q])
    ∧ (i.creatorInfo = none → i.assigneeInfo = none →
        ∃ d, processIssueBody env client bl i = some d ∧
          d.primary_owners = none)
    ∧ (∀ p q, i.creatorInfo = some p → i.assigneeInfo = some q →
        ∃ d, processIssueBody env client bl i = some d ∧
          d.primary_owners = some (if q = p then [p] else [p, q])) := by
  have hng : ¬ (ticketContent env bl i).utf8ByteSize > env.maxTicketSize := by
    omega
  refine ⟨?_, ?_, ?_, ?_⟩
  · intro p hcr has
    refine ⟨_, by rw [processIssueBody, if_neg hng], ?_⟩
    simp [peopleOf, hcr, has]
  · intro q hcr has
    refine ⟨_, by rw [processIssueBody, if_neg hng], ?_⟩
    simp [peopleOf, hcr, has]
  · intro hcr has
    refine ⟨_, by rw [processIssueBody, if_neg hng], ?_⟩
    simp [peopleOf, hcr, has]
  · intro p q hcr has
    refine ⟨_, by rw [processIssueBody, if_neg hng], ?_⟩
    by_cases hqp : q = p
    · simp [peopleOf, hcr, has, hqp]
    · simp [peopleOf, hcr, has, hqp]

/-- C9 witness: valid creator "alice", failed assignee resolution: the
emitted document has exactly the one owner; both failing still emits with
no owners. -/
theorem claim_C9_witness :
    (∃ d, processIssueBody ⟨"2", 100⟩ ⟨"u"⟩ []
        { sampleIssue "K" with creatorInfo := some "alice" } = some d ∧
      d.primary_owners = some ["alice"])
    ∧ (∃ d, processIssueBody ⟨"2", 100⟩ ⟨"u"⟩ [] (sampleIssue "K") = some d ∧
      d.primary_owners = none) := by
  constructor
  · exact (claim_C9 ⟨"2", 100⟩ ⟨"u"⟩ []
      { sampleIssue "K" with creatorInfo := some "alice" } (by decide)).1
      "alice" rfl rfl
  · exact (claim_C9 ⟨"2", 100⟩ ⟨"u"⟩ [] (sampleIssue "K") (by decide)).2.2.1 rfl rfl

/-- C10: in plain-text mode (API version "2"), an absent description is
rendered as the literal string "None" followed by a newline at the start of
the assembled content of the emitted document, and with no surviving
comments the assembled content is exactly the description followed by a
trailing newline. -/
theorem claim_C10 (env : Env) (client : JiraClientHandle) (bl : List String)
    (i : Issue) (hv : env.apiVersion = "2") :
    (i.description = none →
        ∃ r, ticketContent env bl i = "None" ++ ("\n" ++ r))
    ∧ (i.description = none →
        (ticketContent env bl i).utf8ByteSize ≤ env.maxTicketSize →
        ∃ d, processIssueBody env client bl i = some d ∧
          d.sections = [⟨client.serverUrl ++ "/browse/" ++ i.key,
            ticketContent env bl i⟩])
    ∧ ((get_comment_strs i.comments bl).filter (fun c => c ≠ "") = [] →
        ticketContent env bl i = pyStr i.description ++ "\n") := by
  refine ⟨?_, ?_, ?_⟩
  · intro hd
    refine ⟨String.intercalate "\n"
      (((get_comment_strs i.comments bl).filter (fun c => c ≠ "")).map
        (fun c => "Comment: " ++ c)), ?_⟩
    rw [ticketContent]
    simp only [hv, if_pos rfl, hd]
    rw [String.append_assoc]
    rfl
  · intro hd hsz
    have hng : ¬ (ticketContent env bl i).utf8ByteSize > env.maxTicketSize := by
      omega
    exact ⟨_, by rw [processIssueBody, if_neg hng], rfl⟩
  · intro hcm
    rw [ticketContent]
    simp only [hv, if_pos rfl, hcm]
    simp only [if_true, List.map_nil]
    rw [show String.intercalate "\n" [] = "" from rfl, String.append_empty]

/-- C10 witness: an issue with absent description and no comments, in
API-version-2 mode, assembles the content "None\n". -/
theorem claim_C10_witness :
    (∃ r, ticketContent ⟨"2", 100⟩ []
        { sampleIssue "K" with description := none } = "None" ++ ("\n" ++ r))
    ∧ ticketContent ⟨"2", 100⟩ [] { sampleIssue "K" with description := none } =
        pyStr ({ sampleIssue "K" with description := none } : Issue).description ++ "\n" := by
  constructor
  · exact (claim_C10 ⟨"2", 100⟩ ⟨"u"⟩ []
      { sampleIssue "K" with description := none } rfl).1 rfl
  · exact (claim_C10 ⟨"2", 100⟩ ⟨"u"⟩ []
      { sampleIssue "K" with description := none } rfl).2.2 rfl

/-- C5 counterexample: the claim asserts that for every configuration
(project scope configured or not) a remote 404 raises a ValidationError.
With no project configured, the source's project-less branch has no 404
case, so the 404 falls through and is wrapped as a generic RuntimeError. -/
theorem claim_C5_counterexample :
    (validate_connector_settings ⟨10, "b", none, [], [], some ⟨"b"⟩⟩
        (RemoteOutcome.err (some 404) "not found")).1 =
      Except.error (JiraError.runtimeError
        "Unexpected Jira error during validation: not found") := by
  rfl

/-- C5 (amended): on a Ready connector, validation maps 401 to
CredentialExpiredError and 403 to InsufficientPermissionsError and 429 to
ValidationError in both branches; 404 maps to a ValidationError whose
message contains the configured project key only when a project scope is
configured, and otherwise — like every other unclassified remote failure —
is wrapped as a generic RuntimeError carrying the original message; a
successful remote response returns normally. -/
theorem claim_C5 (st : ConnectorState) (c : JiraClientHandle) (msg : String)
    (hc : st._jira_client = some c) :
    ((validate_connector_settings st RemoteOutcome.ok).1 = Except.ok ())
    ∧ ((validate_connector_settings st (RemoteOutcome.err (some 401) msg)).1 =
        Except.error (JiraError.credentialExpired
          "Jira credential appears to be expired or invalid (HTTP 401)."))
    ∧ (∃ m, (validate_connector_settings st (RemoteOutcome.err (some 403) msg)).1 =
        Except.error (JiraError.insufficientPermissions m))
    ∧ ((validate_connector_settings st (RemoteOutcome.err (some 429) msg)).1 =
        Except.error (JiraError.connectorValidation
          "Validation failed due to Jira rate-limits being exceeded. Please try again later."))
    ∧ (∀ p, st.jira_project = some p → p ≠ "" →
        (validate_connector_settings st (RemoteOutcome.err (some 404) msg)).1 =
          Except.error (JiraError.connectorValidation
            ("Jira project not found with key: " ++ p)))
    ∧ (optStrTruthy st.jira_project = false →
        (validate_connector_settings st (RemoteOutcome.err (some 404) msg)).1 =
          Except.error (JiraError.runtimeError
            ("Unexpected Jira error during validation: " ++ msg)))
    ∧ (∀ sc : Option Nat,
        sc ≠ some 401 → sc ≠ some 403 → sc ≠ some 404 → sc ≠ some 429 →
        (validate_connector_settings st (RemoteOutcome.err sc msg)).1 =
          Except.error (JiraError.runtimeError
            ("Unexpected Jira error during validation: " ++ msg))) := by
  refine ⟨?_, ?_, ?_, ?_, ?_, ?_, ?_⟩
  · rw [validate_connector_settings, hc]
    by_cases hp : optStrTruthy st.jira_project <;> simp [hp]
  · rw [validate_connector_settings, hc]
    by_cases hp : optStrTruthy st.jira_project <;> simp [hp]
  · rw [validate_connector_settings, hc]
    by_cases hp : optStrTruthy st.jira_project <;> simp [hp]
  · rw [validate_connector_settings, hc]
    by_cases hp : optStrTruthy st.jira_project <;> simp [hp]
  · intro p hp hpe
    have htr : optStrTruthy (some p) = true := by
      simp [optStrTruthy, hpe]
    rw [validate_connector_settings, hc]
    simp [hp, htr]
  · intro htr
    rw [validate_connector_settings, hc]
    simp [htr]
  · intro sc h1 h2 h3 h4
    rw [validate_connector_settings, hc]
    by_cases hp : optStrTruthy st.jira_project <;> simp [hp, h1, h2, h3, h4]

/-- C5 witness: a project-scoped Ready connector maps 404 to a
ValidationError whose message names the project key, and a successful
response validates. -/
theorem claim_C5_witness :
    (validate_connector_settings ⟨10, "b", some "OPS", [], [], some ⟨"b"⟩⟩
        (RemoteOutcome.err (some 404) "m")).1 =
      Except.error (JiraError.connectorValidation
        ("Jira project not found with key: " ++ "OPS"))
    ∧ (validate_connector_settings ⟨10, "b", some "OPS", [], [], some ⟨"b"⟩⟩
        RemoteOutcome.ok).1 = Except.ok () := by
  constructor
  · exact (claim_C5 ⟨10, "b", some "OPS", [], [], some ⟨"b"⟩⟩ ⟨"b"⟩ "m"
      rfl).2.2.2.2.1 "OPS" rfl (by decide)
  · exact (claim_C5 ⟨10, "b", some "OPS", [], [], some ⟨"b"⟩⟩ ⟨"b"⟩ "m" rfl).1

/-- C6: while no client handle is stored, every retrieval operation and
validation fails with ConnectorMissingCredentialError and leaves the state
unchanged; loading credentials stores a handle, after which none of these
operations raises that error. -/
theorem claim_C6 (env : Env) (st : ConnectorState)
    (serverFn : String → List Issue) (s e : Nat) (so eo : Option Nat)
    (remote : RemoteOutcome) (creds : List (String × String))
    (h : st._jira_client = none) :
    load_from_state env st serverFn =
      (Except.error (JiraError.connectorMissingCredential "Jira"), st)
    ∧ poll_source env st serverFn s e =
      (Except.error (JiraError.connectorMissingCredential "Jira"), st)
    ∧ retrieve_all_slim_documents st serverFn so eo =
      (Except.error (JiraError.connectorMissingCredential "Jira"), st)
    ∧ validate_connector_settings st remote =
      (Except.error (JiraError.connectorMissingCredential "Jira"), st)
    ∧ (load_credentials st creds)._jira_client.isSome = true
    ∧ (∀ st2 : ConnectorState, st2._jira_client.isSome = true →
        (∃ out, (load_from_state env st2 serverFn).1 = Except.ok out)
        ∧ (∃ out, (poll_source env st2 serverFn s e).1 = Except.ok out)
        ∧ (∃ out, (retrieve_all_slim_documents st2 serverFn so eo).1 = Except.ok out)
        ∧ ∀ m, (validate_connector_settings st2 remote).1 ≠
            Except.error (JiraError.connectorMissingCredential m)) := by
  refine ⟨by rw [load_from_state, h], by rw [poll_source, h],
    by rw [retrieve_all_slim_documents, h],
    by rw [validate_connector_settings.eq_def, h], rfl, ?_⟩
  intro st2 h2
  obtain ⟨c, hc⟩ := Option.isSome_iff_exists.mp h2
  refine ⟨⟨_, by rw [load_from_state, hc]⟩, ⟨_, by rw [poll_source, hc]⟩,
    ⟨_, by rw [retrieve_all_slim_documents, hc]⟩, ?_⟩
  intro m
  rw [validate_connector_settings.eq_def, hc]
  rcases remote with _ | ⟨sc, msg⟩
  · by_cases hp : optStrTruthy st2.jira_project <;> simp [hp]
  · by_cases hp : optStrTruthy st2.jira_project <;>
      simp only [hp, if_true, if_false] <;> split_ifs <;> simp

/-- C6 witness: the uninitialized connector state with project "OPS". -/
theorem claim_C6_witness :
    load_from_state ⟨"2", 100⟩ ⟨10, "b", some "OPS", [], [], none⟩
      (fun _ => []) =
      (Except.error (JiraError.connectorMissingCredential "Jira"),
        ⟨10, "b", some "OPS", [], [], none⟩)
    ∧ (load_credentials ⟨10, "b", some "OPS", [], [], none⟩
        [("jira_user_email", "u")])._jira_client.isSome = true := by
  have h := claim_C6 ⟨"2", 100⟩ ⟨10, "b", some "OPS", [], [], none⟩
    (fun _ => []) 0 0 none none RemoteOutcome.ok
    [("jira_user_email", "u")] rfl
  exact ⟨h.1, h.2.2.2.2.1⟩

/-- C8: the identifier-only listing ignores its optional time bounds
entirely — the batches and requests are identical for any bounds — and all
its requests carry the scope-only query, page size 500, and a restriction
to the "key" field; the slim documents are batched by that same size 500
with a final (possibly smaller or empty) remainder batch, and concatenate
to the identifier documents of the full result set in order. -/
theorem claim_C8 (st : ConnectorState) (c : JiraClientHandle)
    (serverFn : String → List Issue) (so eo so2 eo2 : Option Nat)
    (hc : st._jira_client = some c) :
    (retrieve_all_slim_documents st serverFn so eo =
      retrieve_all_slim_documents st serverFn so2 eo2)
    ∧ (retrieve_all_slim_documents st serverFn so eo =
      retrieve_all_slim_documents st serverFn none none)
    ∧ ∃ batches log, (retrieve_all_slim_documents st serverFn so eo).1 =
        Except.ok (batches, log)
        ∧ (∀ r ∈ log, r.jql = _get_jql_query st ∧
            r.maxResults = _JIRA_SLIM_PAGE_SIZE ∧ r.fields = some "key")
        ∧ batches.join = (serverFn (_get_jql_query st)).map
            (fun issue => SlimDocument.mk (build_jira_url c issue.key) none)
        ∧ batches.length =
            (serverFn (_get_jql_query st)).length / _JIRA_SLIM_PAGE_SIZE + 1
        ∧ (∀ b ∈ batches.dropLast, b.length = _JIRA_SLIM_PAGE_SIZE)
        ∧ ∃ last, batches.getLast? = some last ∧
            last.length =
              (serverFn (_get_jql_query st)).length % _JIRA_SLIM_PAGE_SIZE := by
  have h500 : (1 : Nat) ≤ _JIRA_SLIM_PAGE_SIZE := by decide
  have hyield : (_paginate_jql_search serverFn (_get_jql_query st)
      _JIRA_SLIM_PAGE_SIZE (some "key")).1 = serverFn (_get_jql_query st) := by
    rw [_paginate_jql_search, paginateFrom_fst _ _ _ _ _ h500]
    simp
  refine ⟨rfl, rfl,
    batched _JIRA_SLIM_PAGE_SIZE ((serverFn (_get_jql_query st)).map
      (fun issue => SlimDocument.mk (build_jira_url c issue.key) none)),
    (_paginate_jql_search serverFn (_get_jql_query st)
      _JIRA_SLIM_PAGE_SIZE (some "key")).2, ?_, ?_, ?_, ?_, ?_, ?_⟩
  · rw [retrieve_all_slim_documents, hc]
    simp only [hyield]
  · intro r hr
    exact paginateFrom_mem_snd _ _ _ _ _ r hr
  · rw [batched_eq_chunksSpec _ h500, chunksSpec_join]
  · rw [batched_eq_chunksSpec _ h500, chunksSpec_length _ _ h500]
    simp
  · rw [batched_eq_chunksSpec _ h500]
    exact chunksSpec_dropLast _ _ h500
  · rw [batched_eq_chunksSpec _ h500]
    obtain ⟨last, hsome, hlen⟩ := chunksSpec_getLast _JIRA_SLIM_PAGE_SIZE
      ((serverFn (_get_jql_query st)).map
        (fun issue => SlimDocument.mk (build_jira_url c issue.key) none)) h500
    exact ⟨last, hsome, by rw [hlen]; simp⟩

/-- C8 witness: with one record in the result set and any two distinct
bound choices, the slim listing is identical and consists of one batch
holding the single identifier document. -/
theorem claim_C8_witness :
    (retrieve_all_slim_documents ⟨10, "b", none, [], [], some ⟨"b"⟩⟩
        (fun _ => [sampleIssue "K"]) (some 5) (some 9) =
      retrieve_all_slim_documents ⟨10, "b", none, [], [], some ⟨"b"⟩⟩
        (fun _ => [sampleIssue "K"]) none none)
    ∧ ∃ batches log,
        (retrieve_all_slim_documents ⟨10, "b", none, [], [], some ⟨"b"⟩⟩
          (fun _ => [sampleIssue "K"]) (some 5) (some 9)).1 =
          Except.ok (batches, log)
        ∧ batches.join = [SlimDocument.mk "b/browse/K" none] := by
  have h := claim_C8 ⟨10, "b", none, [], [], some ⟨"b"⟩⟩ ⟨"b"⟩
    (fun _ => [sampleIssue "K"]) (some 5) (some 9) none none rfl
  obtain ⟨batches, log, hok, _, hjoin, _⟩ := h.2.2
  exact ⟨h.2.1, batches, log, hok, by rw [hjoin]; rfl⟩

end JiraSpec
